import Mathlib

/-!
# Verification of the `RibbonTrail` core of JCreswellENVRMNT/opengl-sandbox

Shallow embedding of `src/OpenGLSandbox/src/RibbonTrail.{h,cpp}`.

The C++ class stores
  * `std::deque<glm::vec3> mVertices`   — modelled as `List V` for an opaque
    vertex payload type `V` (the core never inspects coordinates);
  * `std::vector<unsigned int> mIndices` — modelled as `List Nat`; the
    `size_t` → `unsigned int` conversion performed by every `push_back` in
    the constructor is made explicit (`% 2^32`);
  * `size_t mNumSegments`               — modelled as `Nat`; `size_t`
    wrap-around is made explicit (`% 2^64`) in the one expression where it
    matters, `4 + 2*(mNumSegments-1)`;
  * `bool mInvalidBuffers = false`.
-/

/-- Modulus of C++ `size_t` arithmetic (64-bit). -/
def SIZE_T_MOD : Nat := 2 ^ 64

/-- Modulus of C++ `unsigned int` arithmetic (32-bit): the element type of
`std::vector<unsigned int> mIndices`, so every value pushed into it is
converted modulo `2^32`. -/
def UINT_MOD : Nat := 2 ^ 32

/-- State of a `RibbonTrail` object, from `RibbonTrail.h`.
`V` is the vertex payload (`glm::vec3` in the source); the core never
computes with coordinates, so the embedding is parametric in it. -/
structure RibbonTrail (V : Type) where
  mVertices : List V
  mIndices : List Nat
  mNumSegments : Nat
  mInvalidBuffers : Bool
deriving Repr, DecidableEq

/-- The indices contributed by loop iteration `segmentIdx` of the constructor
`RibbonTrail::RibbonTrail` (RibbonTrail.cpp lines 23-66): iteration 0 pushes
`0,1,3,2`; iteration `s ≥ 1` computes `size_t lowerIdx = 4 + 2*(s-1)` (the
subtraction is exact since `s ≥ 1`; the rest of the expression wraps modulo
`2^64`) and pushes the pair reversed when `s` is even, in natural order when
`s` is odd.  Each `push_back` into `std::vector<unsigned int> mIndices`
converts its `size_t` argument to `unsigned int`, i.e. reduces it modulo
`2^32`; the increment `lowerIdx + 1` is again `size_t` arithmetic. -/
def segmentIndices (segmentIdx : Nat) : List Nat :=
  if segmentIdx = 0 then
    [0, 1, 3, 2]
  else
    let lowerIdx := (4 + 2 * (segmentIdx - 1)) % SIZE_T_MOD
    if segmentIdx % 2 = 0 then
      [(lowerIdx + 1) % SIZE_T_MOD % UINT_MOD, lowerIdx % UINT_MOD]
    else
      [lowerIdx % UINT_MOD, (lowerIdx + 1) % SIZE_T_MOD % UINT_MOD]

/-- Contents of `mIndices` after the constructor's
`for(segmentIdx = 0; segmentIdx < numSegments; segmentIdx++)` loop. -/
def ctorIndices (numSegments : Nat) : List Nat :=
  (List.range numSegments).flatMap segmentIndices

/-- The constructor `RibbonTrail::RibbonTrail(size_t numSegments)`:
records `mNumSegments`, leaves `mVertices` empty, eagerly fills `mIndices`
via the loop above, and leaves `mInvalidBuffers` at its member initializer
`false`. -/
def RibbonTrail.construct (V : Type) (numSegments : Nat) : RibbonTrail V :=
  { mVertices := []
    mIndices := ctorIndices numSegments
    mNumSegments := numSegments
    mInvalidBuffers := false }

/-- The expression `size_t vertCap = 4 + 2*(mNumSegments-1);`
(RibbonTrail.cpp line 79) in `size_t` arithmetic: the subtraction, the
doubling and the addition each wrap modulo `2^64`.  For `0 < n < 2^63` this
is just `4 + 2*(n-1)`; for `n = 0` it wraps to `2`. -/
def vertCapOf (numSegments : Nat) : Nat :=
  (4 + 2 * ((numSegments + SIZE_T_MOD - 1) % SIZE_T_MOD)) % SIZE_T_MOD

/-- Source function `RibbonTrail::addVertexPair` (RibbonTrail.cpp lines 75-122):
1. if `mVertices.size() >= vertCap`, `pop_front` twice (drop the oldest pair);
2. `push_back(firstVertex)`, `push_back(secondVertex)`;
3. if `mIndices.size() <= vertCap - 2` (a `size_t` subtraction, hence the
   explicit wrap), read `vertCount = mVertices.size()` (after the pushes) and
   push `vertCount, vertCount+1` when `(vertCount/2) % 2` is nonzero
   ("natural progression") or `vertCount+1, vertCount` otherwise ("reverse").
`mInvalidBuffers` is not touched by this function in the source. -/
def RibbonTrail.addVertexPair {V : Type} (t : RibbonTrail V)
    (firstVertex secondVertex : V) : RibbonTrail V :=
  let vertCap := vertCapOf t.mNumSegments
  let afterEvict :=
    if t.mVertices.length ≥ vertCap then t.mVertices.drop 2 else t.mVertices
  let newVertices := afterEvict ++ [firstVertex, secondVertex]
  let newIndices :=
    if t.mIndices.length ≤ (vertCap + SIZE_T_MOD - 2) % SIZE_T_MOD then
      let vertCount := newVertices.length
      if (vertCount / 2) % 2 ≠ 0 then
        t.mIndices ++ [vertCount, vertCount + 1]
      else
        t.mIndices ++ [vertCount + 1, vertCount]
    else
      t.mIndices
  { t with mVertices := newVertices, mIndices := newIndices }

/-- Source function `RibbonTrail::getNumIndices` (RibbonTrail.cpp lines
124-127): returns `mIndices.size()`. -/
def RibbonTrail.getNumIndices {V : Type} (t : RibbonTrail V) : Nat :=
  t.mIndices.length

/-- Modelled from the spec: `getVertexCount` is declared in `RibbonTrail.h`
("the size of the mVertices deque") but defined nowhere under src;
the spec says it "returns current Trail length; no side effects". -/
def RibbonTrail.getVertexCount {V : Type} (t : RibbonTrail V) : Nat :=
  t.mVertices.length

/-- Modelled from the spec: `calculateMaxVertexCount` is declared in
`RibbonTrail.h` but defined nowhere under src; the spec says it is a "pure
function of the configured segment count, returns `4 + 2*(segmentCount-1)`". -/
def calculateMaxVertexCount (segmentCount : Nat) : Nat :=
  4 + 2 * (segmentCount - 1)

/-- Applying `addVertexPair` once per listed pair, oldest first: the states
reachable from a freshly constructed trail are exactly
`(RibbonTrail.construct V n).addAll ps`. -/
def RibbonTrail.addAll {V : Type} (t : RibbonTrail V)
    (ps : List (V × V)) : RibbonTrail V :=
  ps.foldl (fun s p => s.addVertexPair p.1 p.2) t

/-! ## Basic facts about the embedded operations -/

/-- Field access: the index vector of a freshly constructed trail is the
constructor loop's sequence. -/
lemma construct_mIndices (V : Type) (n : Nat) :
    (RibbonTrail.construct V n).mIndices = ctorIndices n := rfl

/-- Field access: `addVertexPair` never changes `mNumSegments`. -/
lemma addVertexPair_mNumSegments {V : Type} (t : RibbonTrail V) (a b : V) :
    (t.addVertexPair a b).mNumSegments = t.mNumSegments := by
  simp only [RibbonTrail.addVertexPair]

/-- Field access: `addVertexPair` never changes `mInvalidBuffers`
(the source function does not touch the flag). -/
lemma addVertexPair_mInvalidBuffers {V : Type} (t : RibbonTrail V) (a b : V) :
    (t.addVertexPair a b).mInvalidBuffers = t.mInvalidBuffers := by
  simp only [RibbonTrail.addVertexPair]

/-- Field access: the vertex deque after `addVertexPair`. -/
lemma addVertexPair_mVertices {V : Type} (t : RibbonTrail V) (a b : V) :
    (t.addVertexPair a b).mVertices =
      (if t.mVertices.length ≥ vertCapOf t.mNumSegments then
        t.mVertices.drop 2
      else
        t.mVertices) ++ [a, b] := rfl

/-- Field access: the index vector after `addVertexPair`. -/
lemma addVertexPair_mIndices {V : Type} (t : RibbonTrail V) (a b : V) :
    (t.addVertexPair a b).mIndices =
      if t.mIndices.length ≤ (vertCapOf t.mNumSegments + SIZE_T_MOD - 2) % SIZE_T_MOD then
        if ((t.addVertexPair a b).mVertices.length / 2) % 2 ≠ 0 then
          t.mIndices ++ [(t.addVertexPair a b).mVertices.length,
                         (t.addVertexPair a b).mVertices.length + 1]
        else
          t.mIndices ++ [(t.addVertexPair a b).mVertices.length + 1,
                         (t.addVertexPair a b).mVertices.length]
      else
        t.mIndices := rfl

/-- Length bookkeeping for one `addVertexPair` call. -/
lemma addVertexPair_length {V : Type} (t : RibbonTrail V) (a b : V) :
    (t.addVertexPair a b).mVertices.length =
      (if t.mVertices.length ≥ vertCapOf t.mNumSegments then
        t.mVertices.length - 2
      else
        t.mVertices.length) + 2 := by
  rw [addVertexPair_mVertices, List.length_append]
  split <;> simp

/-- In `size_t` arithmetic the capacity expression is even. -/
lemma vertCapOf_even (n : Nat) : vertCapOf n % 2 = 0 := by
  unfold vertCapOf SIZE_T_MOD
  omega

/-- For a positive segment count the wrapped capacity never exceeds the
mathematical value `4 + 2*(n-1) = 2*n + 2`. -/
lemma vertCapOf_le (n : Nat) (h : 1 ≤ n) : vertCapOf n ≤ 2 * n + 2 := by
  unfold vertCapOf SIZE_T_MOD
  omega

/-- Wrapped capacity for a zero segment count: `4 + 2*(0-1)` wraps to `2`. -/
lemma vertCapOf_zero : vertCapOf 0 = 2 := by decide

/-- The constructor's index-building guard in `addVertexPair`,
`mIndices.size() <= vertCap - 2`, is false whenever `mIndices` already has
the eagerly built `2*n + 2` entries (for any positive segment count `n`,
wrap-around included). -/
lemma index_guard_false (n : Nat) (h : 1 ≤ n) :
    ¬(2 * n + 2 ≤ (vertCapOf n + SIZE_T_MOD - 2) % SIZE_T_MOD) := by
  unfold vertCapOf SIZE_T_MOD
  omega

/-! ## The constructor's eagerly built index sequence -/

/-- One constructor loop iteration appends its two (or, for iteration 0,
four) indices at the end. -/
lemma ctorIndices_succ (n : Nat) :
    ctorIndices (n + 1) = ctorIndices n ++ segmentIndices n := by
  unfold ctorIndices
  rw [List.range_succ]
  simp

/-- Every loop iteration past the first contributes exactly two indices. -/
lemma segmentIndices_length (s : Nat) (h : s ≠ 0) :
    (segmentIndices s).length = 2 := by
  simp only [segmentIndices, if_neg h]
  split <;> rfl

/-- The constructor builds exactly `2*n + 2 = 4 + 2*(n-1)` indices for a
positive segment count `n`. -/
lemma ctorIndices_length (n : Nat) (h : 1 ≤ n) :
    (ctorIndices n).length = 2 * n + 2 := by
  induction n with
  | zero => omega
  | succ m ih =>
    by_cases hm : m = 0
    · subst hm
      decide
    · rw [ctorIndices_succ, List.length_append, ih (by omega),
        segmentIndices_length m hm]
      omega

/-! ## The canonical tri-strip prefix, as the spec words it -/

/-- Modelled from the spec: the pair of index values the canonical tri-strip
sequence assigns to segment `s ≥ 1` — `(4 + 2*(s-1), 4 + 2*(s-1) + 1)` in
natural order when `s` is odd, reversed when `s` is even. -/
def canonicalPair (s : Nat) : List Nat :=
  if s % 2 = 1 then
    [4 + 2 * (s - 1), 4 + 2 * (s - 1) + 1]
  else
    [4 + 2 * (s - 1) + 1, 4 + 2 * (s - 1)]

/-- Modelled from the spec: the canonical tri-strip prefix for `n` segments —
it begins `0,1,3,2` and then lists the pair of each segment `s` for
`1 ≤ s ≤ n-1`, giving `0,1,3,2, 4,5,7,6, 8,9,11,10, ...`. -/
def canonicalIndices (n : Nat) : List Nat :=
  [0, 1, 3, 2] ++ (List.range' 1 (n - 1)).flatMap canonicalPair

/-- Loop iteration `s ≥ 1` of the constructor produces exactly the canonical
pair of segment `s`, provided the two values fit in `unsigned int`, which
holds up to `s = 2^31 - 2` (the source tests `s % 2 == 0` for the reversed
order, the spec words the same condition as odd `s` for the natural order). -/
lemma segmentIndices_eq_canonicalPair (s : Nat) (h : 1 ≤ s)
    (hfit : s ≤ 2 ^ 31 - 2) :
    segmentIndices s = canonicalPair s := by
  simp only [segmentIndices, canonicalPair, if_neg (by omega : ¬s = 0)]
  have e1 : (4 + 2 * (s - 1)) % SIZE_T_MOD % UINT_MOD = 4 + 2 * (s - 1) := by
    unfold SIZE_T_MOD UINT_MOD
    omega
  have e2 : ((4 + 2 * (s - 1)) % SIZE_T_MOD + 1) % SIZE_T_MOD % UINT_MOD =
      4 + 2 * (s - 1) + 1 := by
    unfold SIZE_T_MOD UINT_MOD
    omega
  rw [e1, e2]
  rcases Nat.mod_two_eq_zero_or_one s with h2 | h2
  · rw [if_pos h2, if_neg (by omega)]
  · rw [if_neg (by omega), if_pos h2]

/-- The canonical prefix grows by one canonical pair per added segment. -/
lemma canonicalIndices_succ (n : Nat) (h : 1 ≤ n) :
    canonicalIndices (n + 1) = canonicalIndices n ++ canonicalPair n := by
  unfold canonicalIndices
  rw [show n + 1 - 1 = (n - 1) + 1 by omega]
  rw [show List.range' 1 ((n - 1) + 1) = List.range' 1 (n - 1) ++ [1 + (n - 1)]
    by simp [List.range'_concat]]
  rw [show 1 + (n - 1) = n by omega]
  simp

/-- The constructor's eagerly built index sequence matches the canonical
tri-strip sequence for every segment count small enough that all stored
values fit in `unsigned int`, i.e. up to `2^31 - 1` segments. -/
lemma ctorIndices_eq_canonicalIndices (n : Nat) (h : 1 ≤ n)
    (hfit : n ≤ 2 ^ 31 - 1) :
    ctorIndices n = canonicalIndices n := by
  induction n with
  | zero => omega
  | succ m ih =>
    by_cases hm : m = 0
    · subst hm
      decide
    · rw [ctorIndices_succ, canonicalIndices_succ m (by omega),
        ih (by omega) (by omega),
        segmentIndices_eq_canonicalPair m (by omega) (by omega)]

/-! ## Reachable-state invariants -/

/-- Unfolding `addAll` on an empty history. -/
lemma addAll_nil {V : Type} (t : RibbonTrail V) : t.addAll [] = t := rfl

/-- Unfolding `addAll` on one more call. -/
lemma addAll_cons {V : Type} (t : RibbonTrail V) (p : V × V)
    (ps : List (V × V)) :
    t.addAll (p :: ps) = (t.addVertexPair p.1 p.2).addAll ps := by
  simp only [RibbonTrail.addAll, List.foldl_cons]

/-- Folding a longer history is folding the two parts in order. -/
lemma addAll_append {V : Type} (t : RibbonTrail V) (ps qs : List (V × V)) :
    t.addAll (ps ++ qs) = (t.addAll ps).addAll qs := by
  induction ps generalizing t with
  | nil => rfl
  | cons p ps ih =>
    rw [List.cons_append, addAll_cons, addAll_cons]
    exact ih (t.addVertexPair p.1 p.2)

/-- Any property preserved by one `addVertexPair` call is preserved by a
whole history of calls. -/
lemma addAll_preserves {V : Type} (P : RibbonTrail V → Prop)
    (hstep : ∀ t a b, P t → P (t.addVertexPair a b)) :
    ∀ (ps : List (V × V)) (t : RibbonTrail V), P t → P (t.addAll ps) := by
  intro ps
  induction ps with
  | nil => exact fun t ht => ht
  | cons p ps ih =>
    intro t ht
    rw [addAll_cons]
    exact ih _ (hstep t p.1 p.2 ht)

/-- The state invariant maintained by a trail constructed with a positive
segment count `n`: the segment count is stored unchanged, the index vector
still holds the constructor's eager sequence, and the vertex deque has even
length bounded by `2*n + 2 = 4 + 2*(n-1)`. -/
def InvN {V : Type} (n : Nat) (t : RibbonTrail V) : Prop :=
  t.mNumSegments = n ∧ t.mIndices = ctorIndices n ∧
    t.mVertices.length % 2 = 0 ∧ t.mVertices.length ≤ 2 * n + 2

/-- A freshly constructed trail satisfies the invariant. -/
lemma invN_construct (V : Type) (n : Nat) :
    InvN n (RibbonTrail.construct V n) := by
  refine ⟨rfl, rfl, ?_, ?_⟩ <;> simp [RibbonTrail.construct]

/-- One `addVertexPair` call preserves the invariant; in particular the
index-building guard is false, so `mIndices` is left untouched. -/
lemma invN_step {V : Type} (n : Nat) (h : 1 ≤ n) (t : RibbonTrail V)
    (a b : V) (ht : InvN n t) : InvN n (t.addVertexPair a b) := by
  obtain ⟨hseg, hidx, hpar, hlen⟩ := ht
  have hilen : t.mIndices.length = 2 * n + 2 := by
    rw [hidx, ctorIndices_length n h]
  refine ⟨(addVertexPair_mNumSegments t a b).trans hseg, ?_, ?_, ?_⟩
  · rw [addVertexPair_mIndices, hseg, hilen, if_neg (index_guard_false n h)]
    exact hidx
  · rw [addVertexPair_length, hseg]
    split <;> omega
  · rw [addVertexPair_length, hseg]
    have hle := vertCapOf_le n h
    have hev := vertCapOf_even n
    split
    · omega
    · rename_i hc
      rw [ge_iff_le, not_le] at hc
      omega

/-- Every state reachable from a construction with positive segment count
satisfies the invariant. -/
lemma invN_reachable (V : Type) (n : Nat) (h : 1 ≤ n) (ps : List (V × V)) :
    InvN n ((RibbonTrail.construct V n).addAll ps) :=
  addAll_preserves (InvN n) (fun t a b => invN_step n h t a b) ps _
    (invN_construct V n)

/-! ## Behavior at segment count zero (size_t wrap-around) -/

/-- With the wrapped capacity `2`, the value compared against
`mIndices.size()` by the index-building guard, `vertCap - 2` in `size_t`,
is `0`. -/
lemma index_guard_bound_zero :
    (vertCapOf 0 + SIZE_T_MOD - 2) % SIZE_T_MOD = 0 := by decide

/-- The state invariant maintained by a trail constructed with segment count
`0`: either nothing was ever added (both containers empty) or the trail
holds exactly one vertex pair and the index vector is `[2, 3]`. -/
def Inv0 {V : Type} (t : RibbonTrail V) : Prop :=
  t.mNumSegments = 0 ∧
    (t.mVertices = [] ∧ t.mIndices = [] ∨
      ∃ x y, t.mVertices = [x, y] ∧ t.mIndices = [2, 3])

/-- Effect of one `addVertexPair` call on a segment-count-zero trail:
whatever pair was stored is evicted, the new pair is the whole deque, and
the index vector is `[2, 3]` (freshly appended on the first call, out of
range for the two vertices, and untouched afterwards because the guard
compares against the wrapped bound `0`). -/
lemma inv0_effect {V : Type} (t : RibbonTrail V) (a b : V) (ht : Inv0 t) :
    (t.addVertexPair a b).mNumSegments = 0 ∧
      (t.addVertexPair a b).mVertices = [a, b] ∧
      (t.addVertexPair a b).mIndices = [2, 3] := by
  obtain ⟨hseg, hcase⟩ := ht
  have hverts : (t.addVertexPair a b).mVertices = [a, b] := by
    rw [addVertexPair_mVertices, hseg, vertCapOf_zero]
    rcases hcase with ⟨hv, _⟩ | ⟨x, y, hv, _⟩
    · rw [hv, if_neg (by simp)]
      simp
    · rw [hv, if_pos (by simp)]
      simp
  refine ⟨(addVertexPair_mNumSegments t a b).trans hseg, hverts, ?_⟩
  rw [addVertexPair_mIndices, hseg, index_guard_bound_zero, hverts]
  rcases hcase with ⟨_, hi⟩ | ⟨x, y, _, hi⟩
  · rw [hi, if_pos (by simp), if_pos (by simp)]
    simp
  · rw [hi, if_neg (by simp)]

/-- The invariant of segment-count-zero trails is preserved by
`addVertexPair`. -/
lemma inv0_step {V : Type} (t : RibbonTrail V) (a b : V) (ht : Inv0 t) :
    Inv0 (t.addVertexPair a b) := by
  obtain ⟨hseg, hverts, hidx⟩ := inv0_effect t a b ht
  exact ⟨hseg, Or.inr ⟨a, b, hverts, hidx⟩⟩

/-- Every state reachable from a construction with segment count `0`
satisfies the invariant. -/
lemma inv0_reachable (V : Type) (ps : List (V × V)) :
    Inv0 ((RibbonTrail.construct V 0).addAll ps) :=
  addAll_preserves Inv0 inv0_step ps _ ⟨rfl, Or.inl ⟨rfl, rfl⟩⟩

/-- Each canonical pair has exactly two entries. -/
lemma canonicalPair_length (s : Nat) : (canonicalPair s).length = 2 := by
  unfold canonicalPair
  split <;> rfl

/-- The canonical sequence for `n ≥ 1` segments has `2*n + 2` entries. -/
lemma canonicalIndices_length (n : Nat) (h : 1 ≤ n) :
    (canonicalIndices n).length = 2 * n + 2 := by
  induction n with
  | zero => omega
  | succ m ih =>
    by_cases hm : m = 0
    · subst hm
      decide
    · rw [canonicalIndices_succ m (by omega), List.length_append,
        ih (by omega), canonicalPair_length]
      omega

/-- Inside the constructor's sequence, the two entries at offset
`4 + 2*(s-1)` are exactly the entries pushed by loop iteration `s`,
for every `1 ≤ s < n`. -/
lemma ctorIndices_pair (n s : Nat) (h1 : 1 ≤ s) (h2 : s < n) :
    ((ctorIndices n).drop (4 + 2 * (s - 1))).take 2 = segmentIndices s := by
  induction n with
  | zero => omega
  | succ m ih =>
    rw [ctorIndices_succ]
    have hm : 1 ≤ m := by omega
    have hlen : (ctorIndices m).length = 2 * m + 2 := ctorIndices_length m hm
    rcases Nat.lt_or_ge s m with hs | hs
    · have hdlen : ((ctorIndices m).drop (4 + 2 * (s - 1))).length =
          2 * m + 2 - (4 + 2 * (s - 1)) := by
        rw [List.length_drop, hlen]
      rw [List.drop_append_of_le_length (by omega),
        List.take_append_of_le_length (by omega)]
      exact ih hs
    · have hsm : s = m := by omega
      subst hsm
      rw [show 4 + 2 * (s - 1) = (ctorIndices s).length by omega,
        List.drop_left]
      have hp := segmentIndices_length s (by omega : s ≠ 0)
      exact List.take_of_length_le (by omega)

/-- Inside the canonical sequence, the two entries at offset `4 + 2*(s-1)`
are exactly the canonical pair of segment `s`, for every `1 ≤ s < n`. -/
lemma canonicalIndices_pair (n s : Nat) (h1 : 1 ≤ s) (h2 : s < n) :
    ((canonicalIndices n).drop (4 + 2 * (s - 1))).take 2 = canonicalPair s := by
  induction n with
  | zero => omega
  | succ m ih =>
    have hm : 1 ≤ m := by omega
    rw [canonicalIndices_succ m hm]
    have hlen : (canonicalIndices m).length = 2 * m + 2 :=
      canonicalIndices_length m hm
    rcases Nat.lt_or_ge s m with hs | hs
    · have hdlen : ((canonicalIndices m).drop (4 + 2 * (s - 1))).length =
          2 * m + 2 - (4 + 2 * (s - 1)) := by
        rw [List.length_drop, hlen]
      rw [List.drop_append_of_le_length (by omega),
        List.take_append_of_le_length (by omega)]
      exact ih hs
    · have hsm : s = m := by omega
      subst hsm
      rw [show 4 + 2 * (s - 1) = (canonicalIndices s).length by omega,
        List.drop_left]
      have hp := canonicalPair_length s
      exact List.take_of_length_le (by omega)

/-! ## Claim theorems -/

/-- C1 counterexample: at segment count `2^31` the constructor's stored
index sequence is not the canonical tri-strip sequence.  Loop iteration
`s = 2^31 - 1` computes `lowerIdx = 4 + 2*(s-1) = 2^32`, and the
`unsigned int` elements of `mIndices` store `(0, 1)` where the canonical
sequence carries `(2^32, 2^32 + 1)`. -/
theorem ctor_index_sequence_truncation_counterexample :
    (RibbonTrail.construct Nat (2 ^ 31)).mIndices ≠ canonicalIndices (2 ^ 31) := by
  intro hEq
  rw [construct_mIndices] at hEq
  have h2 : ((ctorIndices (2 ^ 31)).drop (4 + 2 * (2 ^ 31 - 1 - 1))).take 2 =
      ((canonicalIndices (2 ^ 31)).drop (4 + 2 * (2 ^ 31 - 1 - 1))).take 2 := by
    rw [hEq]
  rw [ctorIndices_pair (2 ^ 31) (2 ^ 31 - 1) (by decide) (by decide),
    canonicalIndices_pair (2 ^ 31) (2 ^ 31 - 1) (by decide) (by decide)] at h2
  exact absurd h2 (by decide)

/-- C1 (amended): for every segment count `N` with `1 ≤ N ≤ 2^31 - 1` — so
that every index value pushed into `std::vector<unsigned int>` fits in
`unsigned int` — the constructor's complete index sequence has length
`4 + 2*(N-1)` and is exactly the canonical tri-strip sequence: it begins
`0,1,3,2` and for each subsequent segment `s` (`1 ≤ s ≤ N-1`) carries the
pair `(4+2*(s-1), 4+2*(s-1)+1)` in natural order when `s` is odd and
reversed when `s` is even, reproducing `0,1,3,2, 4,5,7,6, 8,9,11,10, ...`.
From `N = 2^31` on, the stored values wrap modulo `2^32` and deviate from
the canonical values (see the counterexample above). -/
theorem ctor_index_sequence_canonical (V : Type) (n : Nat) (h : 1 ≤ n)
    (hfit : n ≤ 2 ^ 31 - 1) :
    (RibbonTrail.construct V n).mIndices = canonicalIndices n ∧
    (RibbonTrail.construct V n).getNumIndices = 4 + 2 * (n - 1) := by
  constructor
  · show ctorIndices n = canonicalIndices n
    exact ctorIndices_eq_canonicalIndices n h hfit
  · show (ctorIndices n).length = 4 + 2 * (n - 1)
    rw [ctorIndices_length n h]
    omega

/-- C1 witness: the amended theorem instantiated at segment count 5. -/
theorem ctor_index_sequence_canonical_witness :
    (1 ≤ 5 ∧ 5 ≤ 2 ^ 31 - 1) ∧
      ((RibbonTrail.construct Nat 5).mIndices = canonicalIndices 5 ∧
        (RibbonTrail.construct Nat 5).getNumIndices = 4 + 2 * (5 - 1)) :=
  ⟨⟨by decide, by decide⟩,
    ctor_index_sequence_canonical Nat 5 (by decide) (by decide)⟩

/-- C2: for every segment count `N ≥ 1`, in every reachable state a call to
`addVertexPair` leaves at most `calculateMaxVertexCount N = 4 + 2*(N-1)`
vertices, and when the trail is at (or above) that capacity beforehand the
front (oldest) pair is removed before the two new vertices are appended at
the back — eviction is strictly FIFO by pair. -/
theorem addVertexPair_capacity_and_fifo_eviction (V : Type) (n : Nat)
    (h : 1 ≤ n) (ps : List (V × V)) (a b : V) :
    (((RibbonTrail.construct V n).addAll ps).addVertexPair a b).getVertexCount
        ≤ calculateMaxVertexCount n ∧
    (calculateMaxVertexCount n ≤
        ((RibbonTrail.construct V n).addAll ps).getVertexCount →
      (((RibbonTrail.construct V n).addAll ps).addVertexPair a b).mVertices =
        ((RibbonTrail.construct V n).addAll ps).mVertices.drop 2 ++ [a, b]) := by
  obtain ⟨hseg, hidx, hpar, hlen⟩ := invN_reachable V n h ps
  have hle := vertCapOf_le n h
  have hev := vertCapOf_even n
  constructor
  · show (((RibbonTrail.construct V n).addAll ps).addVertexPair a b).mVertices.length
        ≤ calculateMaxVertexCount n
    rw [addVertexPair_length, hseg]
    unfold calculateMaxVertexCount
    split
    · omega
    · rename_i hc
      rw [ge_iff_le, not_le] at hc
      omega
  · intro hfull
    have hfull' : calculateMaxVertexCount n ≤
        ((RibbonTrail.construct V n).addAll ps).mVertices.length := hfull
    unfold calculateMaxVertexCount at hfull'
    have hc : ((RibbonTrail.construct V n).addAll ps).mVertices.length ≥
        vertCapOf ((RibbonTrail.construct V n).addAll ps).mNumSegments := by
      rw [hseg]
      omega
    rw [addVertexPair_mVertices, if_pos hc]

/-- C2 witness: the theorem instantiated at segment count 1 with a history
that fills the trail to its capacity of 4 vertices. -/
theorem addVertexPair_capacity_and_fifo_eviction_witness :
    1 ≤ 1 ∧
      ((((RibbonTrail.construct Nat 1).addAll
            [(1, 2), (3, 4)]).addVertexPair 5 6).getVertexCount
          ≤ calculateMaxVertexCount 1 ∧
        (calculateMaxVertexCount 1 ≤
            ((RibbonTrail.construct Nat 1).addAll
              [(1, 2), (3, 4)]).getVertexCount →
          (((RibbonTrail.construct Nat 1).addAll
              [(1, 2), (3, 4)]).addVertexPair 5 6).mVertices =
            ((RibbonTrail.construct Nat 1).addAll
              [(1, 2), (3, 4)]).mVertices.drop 2 ++ [5, 6])) :=
  ⟨by decide,
    addVertexPair_capacity_and_fifo_eviction Nat 1 (by decide)
      [(1, 2), (3, 4)] 5 6⟩

/-- C5: in every state reachable by constructing with segment count `N ≥ 1`
and performing any sequence of `addVertexPair` calls, the trail length is
even and at most `4 + 2*(N-1)`, the index sequence length is at most
`4 + 2*(N-1)`, and once the index sequence length equals `4 + 2*(N-1)` no
further calls ever grow it. -/
theorem reachable_trail_and_index_bounds (V : Type) (n : Nat) (h : 1 ≤ n)
    (ps qs : List (V × V)) :
    ((RibbonTrail.construct V n).addAll ps).getVertexCount ≤ 4 + 2 * (n - 1) ∧
    ((RibbonTrail.construct V n).addAll ps).getVertexCount % 2 = 0 ∧
    ((RibbonTrail.construct V n).addAll ps).getNumIndices ≤ 4 + 2 * (n - 1) ∧
    (((RibbonTrail.construct V n).addAll ps).getNumIndices = 4 + 2 * (n - 1) →
      (((RibbonTrail.construct V n).addAll ps).addAll qs).getNumIndices =
        ((RibbonTrail.construct V n).addAll ps).getNumIndices) := by
  obtain ⟨hseg, hidx, hpar, hlen⟩ := invN_reachable V n h ps
  have hidxlen : ((RibbonTrail.construct V n).addAll ps).mIndices.length =
      2 * n + 2 := by
    rw [hidx, ctorIndices_length n h]
  obtain ⟨hseg2, hidx2, _, _⟩ := invN_reachable V n h (ps ++ qs)
  rw [addAll_append] at hidx2
  have hidxlen2 :
      (((RibbonTrail.construct V n).addAll ps).addAll qs).mIndices.length =
        2 * n + 2 := by
    rw [hidx2, ctorIndices_length n h]
  refine ⟨?_, hpar, ?_, ?_⟩
  · show ((RibbonTrail.construct V n).addAll ps).mVertices.length ≤ 4 + 2 * (n - 1)
    omega
  · show ((RibbonTrail.construct V n).addAll ps).mIndices.length ≤ 4 + 2 * (n - 1)
    omega
  · intro _
    show (((RibbonTrail.construct V n).addAll ps).addAll qs).mIndices.length =
      ((RibbonTrail.construct V n).addAll ps).mIndices.length
    omega

/-- C5 witness: the theorem instantiated at segment count 2 with concrete
histories. -/
theorem reachable_trail_and_index_bounds_witness :
    1 ≤ 2 ∧
      (((RibbonTrail.construct Nat 2).addAll [(1, 2)]).getVertexCount
          ≤ 4 + 2 * (2 - 1) ∧
        ((RibbonTrail.construct Nat 2).addAll [(1, 2)]).getVertexCount % 2 = 0 ∧
        ((RibbonTrail.construct Nat 2).addAll [(1, 2)]).getNumIndices
          ≤ 4 + 2 * (2 - 1) ∧
        (((RibbonTrail.construct Nat 2).addAll [(1, 2)]).getNumIndices =
            4 + 2 * (2 - 1) →
          (((RibbonTrail.construct Nat 2).addAll [(1, 2)]).addAll
              [(3, 4)]).getNumIndices =
            ((RibbonTrail.construct Nat 2).addAll [(1, 2)]).getNumIndices)) :=
  ⟨by decide, reachable_trail_and_index_bounds Nat 2 (by decide) [(1, 2)] [(3, 4)]⟩

/-- C9: for every segment count `N ≥ 1` the constructor eagerly fills all
`4 + 2*(N-1)` index slots; in every reachable state the guard
`mIndices.size() <= vertCap - 2` of `addVertexPair` is false, every call
leaves the index sequence unchanged, and `getNumIndices()` returns the
constant `4 + 2*(N-1)`. -/
theorem index_sequence_constant_after_construction (V : Type) (n : Nat)
    (h : 1 ≤ n) (ps : List (V × V)) (a b : V) :
    (RibbonTrail.construct V n).getNumIndices = 4 + 2 * (n - 1) ∧
    ¬(((RibbonTrail.construct V n).addAll ps).mIndices.length ≤
        (vertCapOf n + SIZE_T_MOD - 2) % SIZE_T_MOD) ∧
    (((RibbonTrail.construct V n).addAll ps).addVertexPair a b).mIndices =
      ((RibbonTrail.construct V n).addAll ps).mIndices ∧
    ((RibbonTrail.construct V n).addAll ps).getNumIndices = 4 + 2 * (n - 1) := by
  obtain ⟨hseg, hidx, hpar, hlen⟩ := invN_reachable V n h ps
  have hidxlen : ((RibbonTrail.construct V n).addAll ps).mIndices.length =
      2 * n + 2 := by
    rw [hidx, ctorIndices_length n h]
  have hguard := index_guard_false n h
  refine ⟨?_, ?_, ?_, ?_⟩
  · show (ctorIndices n).length = 4 + 2 * (n - 1)
    rw [ctorIndices_length n h]
    omega
  · rw [hidxlen]
    exact hguard
  · rw [addVertexPair_mIndices, hseg, hidxlen, if_neg hguard]
  · show ((RibbonTrail.construct V n).addAll ps).mIndices.length = 4 + 2 * (n - 1)
    omega

/-- C9 witness: the theorem instantiated at segment count 1 after one call,
with one more call on top. -/
theorem index_sequence_constant_after_construction_witness :
    1 ≤ 1 ∧
      ((RibbonTrail.construct Nat 1).getNumIndices = 4 + 2 * (1 - 1) ∧
        ¬(((RibbonTrail.construct Nat 1).addAll [(1, 2)]).mIndices.length ≤
            (vertCapOf 1 + SIZE_T_MOD - 2) % SIZE_T_MOD) ∧
        (((RibbonTrail.construct Nat 1).addAll [(1, 2)]).addVertexPair 3 4).mIndices =
          ((RibbonTrail.construct Nat 1).addAll [(1, 2)]).mIndices ∧
        ((RibbonTrail.construct Nat 1).addAll [(1, 2)]).getNumIndices =
          4 + 2 * (1 - 1)) :=
  ⟨by decide,
    index_sequence_constant_after_construction Nat 1 (by decide) [(1, 2)] 3 4⟩

/-- C10: constructing with segment count 0 makes the capacity expression
`4 + 2*(mNumSegments-1)` wrap in `size_t` arithmetic to `2`, so after any
history the trail holds at most one vertex pair (each call evicts the
previous pair: after `addVertexPair a b` the whole deque is `[a, b]`), the
first call appends the index values 2 and 3 — both at least the trail's
length of 2 — and the index sequence stays `[2, 3]` forever. -/
theorem zero_segments_wraps_capacity_to_two (V : Type) (ps : List (V × V))
    (a b : V) :
    vertCapOf 0 = 2 ∧
    ((RibbonTrail.construct V 0).addVertexPair a b).mVertices = [a, b] ∧
    ((RibbonTrail.construct V 0).addVertexPair a b).mIndices = [2, 3] ∧
    (((RibbonTrail.construct V 0).addAll ps).addVertexPair a b).mVertices = [a, b] ∧
    (((RibbonTrail.construct V 0).addAll ps).addVertexPair a b).mIndices = [2, 3] := by
  obtain ⟨_, hv1, hi1⟩ :=
    inv0_effect (RibbonTrail.construct V 0) a b ⟨rfl, Or.inl ⟨rfl, rfl⟩⟩
  obtain ⟨_, hv2, hi2⟩ :=
    inv0_effect ((RibbonTrail.construct V 0).addAll ps) a b
      (inv0_reachable V ps)
  exact ⟨vertCapOf_zero, hv1, hi1, hv2, hi2⟩

/-- C3 evidence: immediately after construction with segment count 3 and
before any `addVertexPair` call, the vertex deque is empty yet
`getNumIndices()` returns 8, not 0 — the constructor eagerly pre-populates
the full index sequence instead of leaving it empty to grow lazily. -/
theorem getNumIndices_nonzero_after_construction :
    (RibbonTrail.construct Nat 3).mVertices = [] ∧
    (RibbonTrail.construct Nat 3).getNumIndices = 8 ∧
    (RibbonTrail.construct Nat 3).getNumIndices ≠ 0 := by decide

/-- C4 evidence: in a state where the index sequence is below capacity the
lazy branch of `addVertexPair` appends `(vertCount, vertCount+1)`, not the
claimed `(vertCount-2, vertCount-1)`.  Both reachable (segment count 0,
first call: appended pair is `(2, 3)` instead of `(0, 1)`) and on a
lazily-initialized segment-count-3 state, the appended values are two too
large and point past the stored vertices. -/
theorem lazy_index_branch_appends_wrong_pair :
    ((RibbonTrail.construct Nat 0).addVertexPair 10 20).getVertexCount = 2 ∧
    ((RibbonTrail.construct Nat 0).addVertexPair 10 20).mIndices = [2, 3] ∧
    ((RibbonTrail.construct Nat 0).addVertexPair 10 20).mIndices ≠ [0, 1] ∧
    ((RibbonTrail.mk [] [] 3 false : RibbonTrail Nat).addVertexPair 10 20).mIndices
      = [2, 3] ∧
    ((RibbonTrail.mk [] [] 3 false : RibbonTrail Nat).addVertexPair 10 20).mIndices
      ≠ [0, 1] := by decide

/-- C6 evidence: while the trail is still filling (2 of 8 vertices after one
call at segment count 3), the index sequence already contains the value 7,
which is not below the current `getVertexCount()` of 2. -/
theorem index_values_exceed_vertex_count_while_filling :
    ((RibbonTrail.construct Nat 3).addVertexPair 100 101).getVertexCount = 2 ∧
    ((RibbonTrail.construct Nat 3).addVertexPair 100 101).getVertexCount <
      calculateMaxVertexCount 3 ∧
    7 ∈ ((RibbonTrail.construct Nat 3).addVertexPair 100 101).mIndices ∧
    ¬(∀ i ∈ ((RibbonTrail.construct Nat 3).addVertexPair 100 101).mIndices,
        i < ((RibbonTrail.construct Nat 3).addVertexPair 100 101).getVertexCount) := by
  decide

/-- C7 evidence: the dirty flag starts false, but a mutating
`addVertexPair` call leaves it false — the source function never sets
`mInvalidBuffers`. -/
theorem addVertexPair_leaves_dirty_flag_false :
    (RibbonTrail.construct Nat 3).mInvalidBuffers = false ∧
    ((RibbonTrail.construct Nat 3).addVertexPair 100 101).mInvalidBuffers
      = false := by decide

/-- C8 evidence: construction with segment count 0 performs no validation
and no clamping — the zero is stored as-is, the containers are freshly
initialized, the capacity expression silently wraps to 2, and subsequent
operations proceed normally (no deferred error of any kind exists in the
state). -/
theorem construct_accepts_zero_segments_silently :
    (RibbonTrail.construct Nat 0).mNumSegments = 0 ∧
    (RibbonTrail.construct Nat 0).mVertices = [] ∧
    (RibbonTrail.construct Nat 0).mIndices = [] ∧
    vertCapOf 0 = 2 ∧
    ((RibbonTrail.construct Nat 0).addVertexPair 100 101).getVertexCount = 2 := by
  decide
